import Mathlib

/-!
Verification of the interview lifecycle orchestrator (eval-mate).

The definitions below are a shallow embedding of the TypeScript sources:
`src/scheduler.ts` (polling orchestrator and routing maps), `src/interviewer.ts`
(conversation turns and summary extraction), `src/db.ts` (durable store
operations and scan predicates), `src/parser.ts` (schedule-request field
extraction) and `src/bot.ts` (inbound dispatch and the cancel command).
JavaScript `Map`s become association lists, the SQLite-backed store becomes a
list of records with the query predicates written out, and the external
model/transport calls become explicit outcome parameters (an `Option` result
models a call that may throw).
-/

namespace EvalMate

/-- `InterviewStatus` from `src/types.ts`. -/
inductive Status where
  | pending
  | researching
  | ready
  | notified
  | in_progress
  | completed
  | cancelled
  deriving DecidableEq, Repr

/-- `InterviewPhase` from `src/types.ts`. -/
inductive Phase where
  | intro
  | questioning
  deriving DecidableEq, Repr

/-- Message role in the transcript (`'assistant' | 'user'`). -/
inductive Role where
  | assistant
  | user
  deriving DecidableEq, Repr

/-- `CandidateProfile` from `src/types.ts`. -/
structure CandidateProfile where
  tech_stack : List String
  years_of_experience : Option Int
  project_highlights : List String
  suggested_focus_areas : List String
  deriving DecidableEq, Repr

/-- A JSON number as an exact fraction `num / (dpred + 1)`: every payload the
code handles is produced by `JSON.stringify` on finite doubles, and the
comparisons and rounding the claims mention are exact on rationals.  The
denominator is stored minus one so it is positive by construction, and the
fraction is kept unreduced so that all arithmetic is plain `Int`/`Nat`
computation. -/
structure JNum where
  num : Int
  dpred : Nat
  deriving DecidableEq, Repr

/-- The (positive) denominator of a `JNum`. -/
def JNum.den (q : JNum) : Int :=
  (q.dpred : Int) + 1

/-- Exact order on JSON numbers (cross multiplication; denominators are
positive). -/
def jnum_le (a b : JNum) : Prop :=
  a.num * b.den ≤ b.num * a.den

instance (a b : JNum) : Decidable (jnum_le a b) :=
  inferInstanceAs (Decidable (_ ≤ _))

/-- Generic JSON values, modelling what `JSON.parse` returns. -/
inductive Json where
  | null
  | bool (b : Bool)
  | num (q : JNum)
  | str (s : String)
  | arr (elems : List Json)
  | obj (fields : List (String × Json))

/-- Field lookup on a parsed JSON object.  JavaScript object literals keep the
last duplicate key, so the lookup walks the field list from the right. -/
def json_get (j : Json) (key : String) : Option Json :=
  match j with
  | Json.obj fields => (fields.reverse.find? (fun p => p.1 == key)).map Prod.snd
  | _ => none

/-- One interview record (`Interview` in `src/types.ts`).  The research notes
and question set are opaque blobs as far as the orchestrator is concerned, so
they are kept as a summary string and a list of question texts; the evaluation
report is stored as the JSON value `set_summary` serialises. -/
structure Interview where
  id : Nat
  telegram_user_id : String
  candidate_name : String
  candidate_telegram_username : String
  candidate_telegram_id : String
  scheduled_time : Int
  duration_minutes : Int
  status : Status
  interview_phase : Phase
  candidate_profile : Option CandidateProfile
  research_notes : Option String
  interview_questions : Option (List String)
  summary : Option Json

-- ── JavaScript `Map` model (association list, insertion order kept) ─────────

/-- `Map.has`. -/
def map_has (m : List (String × Nat)) (k : String) : Bool :=
  m.any (fun p => p.1 == k)

/-- `Map.get` (`undefined` becomes `none`). -/
def map_get (m : List (String × Nat)) (k : String) : Option Nat :=
  (m.find? (fun p => p.1 == k)).map Prod.snd

/-- `Map.set`: update in place if the key exists, else append. -/
def map_set (m : List (String × Nat)) (k : String) (v : Nat) : List (String × Nat) :=
  if map_has m k then m.map (fun p => if p.1 == k then (k, v) else p)
  else m ++ [(k, v)]

/-- `Map.delete`. -/
def map_delete (m : List (String × Nat)) (k : String) : List (String × Nat) :=
  m.filter (fun p => p.1 != k)

-- ── Durable store operations (`src/db.ts`) ──────────────────────────────────

/-- `get_interview`: `SELECT * FROM interviews WHERE id = ?` (first row). -/
def db_get_interview (ivs : List Interview) (id : Nat) : Option Interview :=
  ivs.find? (fun iv => iv.id == id)

/-- `UPDATE interviews SET ... WHERE id = ?`: rewrite every row with the id. -/
def db_update_record (ivs : List Interview) (id : Nat) (f : Interview → Interview) :
    List Interview :=
  ivs.map (fun iv => if iv.id == id then f iv else iv)

/-- `update_interview_status`. -/
def db_update_status (ivs : List Interview) (id : Nat) (st : Status) : List Interview :=
  db_update_record ivs id (fun iv => { iv with status := st })

/-- `set_research`: persist research notes and question set together. -/
def db_set_research (ivs : List Interview) (id : Nat) (notes : String)
    (questions : List String) : List Interview :=
  db_update_record ivs id
    (fun iv => { iv with research_notes := some notes, interview_questions := some questions })

/-- `set_summary`. -/
def db_set_summary (ivs : List Interview) (id : Nat) (summary : Json) : List Interview :=
  db_update_record ivs id (fun iv => { iv with summary := some summary })

-- ── Durable scan predicates (the five status/time queries in `src/db.ts`) ───

/-- Row filter of `get_due_interviews`:
`status = 'ready' AND scheduled_time <= Date.now()`. -/
def due_pred (now : Int) (iv : Interview) : Bool :=
  iv.status == Status.ready && iv.scheduled_time ≤ now

/-- Row filter of `get_pending_for_research`:
`status = 'pending' AND scheduled_time <= now + research_lead_hours·3600000`. -/
def pending_research_pred (now : Int) (lead_hours : Int) (iv : Interview) : Bool :=
  iv.status == Status.pending && iv.scheduled_time ≤ now + lead_hours * 3600000

/-- Row filter of `get_interviews_for_reminder`:
`status = 'ready' AND scheduled_time BETWEEN now+10min AND now+20min`. -/
def reminder_pred (now : Int) (iv : Interview) : Bool :=
  iv.status == Status.ready && now + 600000 ≤ iv.scheduled_time
    && iv.scheduled_time ≤ now + 1200000

/-- Row filter of `get_in_progress_interviews`. -/
def in_progress_pred (iv : Interview) : Bool :=
  iv.status == Status.in_progress

/-- Row filter of `get_notified_interviews`. -/
def notified_pred (iv : Interview) : Bool :=
  iv.status == Status.notified

-- ── Orchestrator state and notification sink ────────────────────────────────

/-- A transcript row of the `messages` table (append-only). -/
structure TranscriptEntry where
  interview_id : Nat
  role : Role
  content : String
  deriving DecidableEq, Repr

/-- Process state of the scheduler: the durable store plus the two in-memory
routing maps (`active_interviews` and `notified_interviews` in
`src/scheduler.ts`). -/
structure OrchestratorState where
  interviews : List Interview
  transcript : List TranscriptEntry
  active_interviews : List (String × Nat)
  notified_interviews : List (String × Nat)

/-- `append_message`: insert one transcript row. -/
def db_append_message (s : OrchestratorState) (id : Nat) (role : Role) (content : String) :
    OrchestratorState :=
  { s with transcript := s.transcript ++ [⟨id, role, content⟩] }

/-- Messages the orchestrator hands to the notification sink.  Each constructor
records the destination identity and the translation key family used in the
source; `notify_admin` keeps the flag saying whether the
`notify.admin_no_start` warning line was appended. -/
inductive SentMsg where
  | notify_candidate (to_id : String)
  | notify_admin (to_id : String) (warning : Bool)
  | research_started (to_id : String)
  | research_done (to_id : String) (question_count : Nat)
  | research_error (to_id : String)
  | thank_candidate (to_id : String)
  | summary_report (to_chat : String) (summary : Json)
  | summary_error (to_chat : String) (interview_id : Nat)

-- ── `start_interview_for_user` (`src/scheduler.ts` 168–189) ─────────────────

/-- `start_interview_for_user(key)`.  `opening` is the outcome of
`send_opening_message`: `some text` when the Conversation Stage produced an
opening turn, `none` when it threw.  Mirrors the source line by line: a miss in
the notified map returns `null` at once; on a hit the durable status, both
maps and (on success) the transcript are updated; on generation failure the
entry is restored and the status reverted to `notified`. -/
def start_interview_for_user (key : String) (opening : Option String)
    (s : OrchestratorState) : Option String × OrchestratorState :=
  match map_get s.notified_interviews key with
  | none => (none, s)
  | some interview_id =>
    let s1 : OrchestratorState :=
      { s with notified_interviews := map_delete s.notified_interviews key,
               interviews := db_update_status s.interviews interview_id Status.in_progress }
    let s2 : OrchestratorState :=
      { s1 with active_interviews := map_set s1.active_interviews key interview_id }
    match opening with
    | some text =>
      (some text, db_append_message s2 interview_id Role.assistant text)
    | none =>
      (none,
        { s2 with active_interviews := map_delete s2.active_interviews key,
                  interviews := db_update_status s2.interviews interview_id Status.notified,
                  notified_interviews := map_set s2.notified_interviews key interview_id })

-- ── Notify trigger (`check_and_notify_interviews`, `src/scheduler.ts` 78–120) ─

/-- Body of the `for` loop of `check_and_notify_interviews` for one due record.
`candidate_send_ok` is the outcome of the `bot.api.sendMessage` call to the
candidate (ignored when no platform id is known, because the call is then never
made).  The admin send is wrapped in its own `try {} catch {}` that ignores the
failure, so its outcome does not influence the state; the emitted message is
recorded unconditionally as the attempt the orchestrator makes.  Mirrors the
source order: skip when the key is in either routing map, otherwise durable
status and routing entry are written first, then the sends happen; a failed
candidate send rolls both back and skips the admin message (`continue`). -/
def check_and_notify_record (iv : Interview) (candidate_send_ok : Bool)
    (s : OrchestratorState) : OrchestratorState × List SentMsg :=
  let key := iv.candidate_telegram_username
  if map_has s.active_interviews key then (s, [])
  else if map_has s.notified_interviews key then (s, [])
  else
    let s1 : OrchestratorState :=
      { s with interviews := db_update_status s.interviews iv.id Status.notified,
               notified_interviews := map_set s.notified_interviews key iv.id }
    if iv.candidate_telegram_id != "" then
      if candidate_send_ok then
        (s1, [SentMsg.notify_candidate iv.candidate_telegram_id,
              SentMsg.notify_admin iv.telegram_user_id false])
      else
        ({ s1 with notified_interviews := map_delete s1.notified_interviews key,
                   interviews := db_update_status s1.interviews iv.id Status.ready }, [])
    else
      (s1, [SentMsg.notify_admin iv.telegram_user_id true])

-- ── Research trigger (`process_pending_research`, `src/scheduler.ts` 191–223) ─

/-- Outcome of the `try` block of `process_pending_research` for one record:
the "research started" owner message may itself throw before the Research
Stage runs, the Research Stage may throw, or everything succeeds. -/
inductive ResearchOutcome where
  | started_send_fails
  | research_fails
  | success (notes : String) (questions : List String)

/-- Body of the `for` loop of `process_pending_research` for one pending
record.  The status is written to `researching` before the blocking calls; on
success the research artifacts are persisted and the status becomes `ready`
before the "done" message; on any failure the status reverts to `pending` and
the owner is sent the failure notice (whose own delivery failure is ignored by
`.catch(() => \x7b\x7d)`). -/
def process_research_record (iv : Interview) (outcome : ResearchOutcome)
    (ivs : List Interview) : List Interview × List SentMsg :=
  let ivs1 := db_update_status ivs iv.id Status.researching
  match outcome with
  | ResearchOutcome.started_send_fails =>
    (db_update_status ivs1 iv.id Status.pending,
     [SentMsg.research_error iv.telegram_user_id])
  | ResearchOutcome.research_fails =>
    (db_update_status ivs1 iv.id Status.pending,
     [SentMsg.research_started iv.telegram_user_id,
      SentMsg.research_error iv.telegram_user_id])
  | ResearchOutcome.success notes questions =>
    let ivs2 := db_set_research ivs1 iv.id notes questions
    (db_update_status ivs2 iv.id Status.ready,
     [SentMsg.research_started iv.telegram_user_id,
      SentMsg.research_done iv.telegram_user_id questions.length])

-- ── `finish_interview` (`src/scheduler.ts` 225–309) ─────────────────────────

/-- `finish_interview`.  `summary_result` is the outcome of `generate_summary`
(`none` models a throw); `report_send_ok` is the outcome of sending the
formatted report to the admin chat.  Mirrors the source: a missing record
returns at once; otherwise the routing entry is removed and the status set to
`completed` before any blocking call; the candidate thank-you delivery failure
is ignored; on evaluation success the report is persisted with `set_summary`
and then sent; any failure inside the `try` (generation or the report send)
lands in the `catch`, which reports the failure to the admin chat (its own
delivery failure again ignored).  The status is never reverted. -/
def finish_interview (interview_id : Nat) (admin_chat_id : String)
    (summary_result : Option Json) (report_send_ok : Bool)
    (s : OrchestratorState) : OrchestratorState × List SentMsg :=
  match db_get_interview s.interviews interview_id with
  | none => (s, [])
  | some iv =>
    let s1 : OrchestratorState :=
      { s with active_interviews := map_delete s.active_interviews iv.candidate_telegram_username,
               interviews := db_update_status s.interviews interview_id Status.completed }
    let thank :=
      if iv.candidate_telegram_id != "" then [SentMsg.thank_candidate iv.candidate_telegram_id]
      else []
    match summary_result with
    | some summary =>
      let s2 : OrchestratorState :=
        { s1 with interviews := db_set_summary s1.interviews interview_id summary }
      if report_send_ok then
        (s2, thank ++ [SentMsg.summary_report admin_chat_id summary])
      else
        (s2, thank ++ [SentMsg.summary_error admin_chat_id interview_id])
    | none =>
      (s1, thank ++ [SentMsg.summary_error admin_chat_id interview_id])

-- ── `/cancel <id>` command (`src/bot.ts`, `bot.command('cancel')`) ──────────

/-- The cancel-by-id branch of the `/cancel` command handler.  `user_id` is the
Telegram id of the admin issuing the command (`String(ctx.from!.id)`).  The
source runs `cancel_interview(iv.id)` and then
`notified_interviews.delete(user_id)` — note that the deletion key is the
admin's numeric id, exactly as written in `src/bot.ts`, not the candidate
handle the map is keyed by.  Returns the new state and whether a cancellation
happened. -/
def cancel_command_by_id (user_id : String) (target_id : Nat)
    (s : OrchestratorState) : OrchestratorState × Bool :=
  match db_get_interview s.interviews target_id with
  | none => (s, false)
  | some iv =>
    if iv.telegram_user_id != user_id then (s, false)
    else if iv.status == Status.in_progress then (s, false)
    else
      ({ s with interviews := db_update_status s.interviews iv.id Status.cancelled,
                notified_interviews := map_delete s.notified_interviews user_id }, true)

-- ── Inbound dispatch (`src/bot.ts`, `bot.on('message:text')`) ───────────────

/-- ASCII lowercase of one character, the fragment of
`String.prototype.toLowerCase()` relevant to Telegram handles. -/
def ascii_lower_char (c : Char) : Char :=
  if 'A' ≤ c ∧ c ≤ 'Z' then Char.ofNat (c.toNat + 32) else c

/-- `s.toLowerCase()` on ASCII text. -/
def ascii_lower (s : String) : String :=
  String.mk (s.data.map ascii_lower_char)

/-- `get_interview_by_candidate_username` from `src/db.ts`: the first row by
`scheduled_time` with `candidate_telegram_username = ?` and
`status IN ('notified','in_progress')`.  SQLite compares `TEXT` with the
default `BINARY` collation, so the username comparison is exact
(case-sensitive). -/
def get_interview_by_candidate_username (ivs : List Interview) (username : String) :
    Option Interview :=
  let hits := ivs.filter (fun iv =>
    iv.candidate_telegram_username == username
      && (iv.status == Status.notified || iv.status == Status.in_progress))
  hits.foldl (fun best iv =>
    match best with
    | none => some iv
    | some b => if iv.scheduled_time < b.scheduled_time then some iv else some b) none

/-- How an inbound text message is resolved. -/
inductive Resolution where
  | session_start (interview_id : Nat)
  | conversation_turn (interview_id : Nat)
  | unresolved
  deriving DecidableEq, Repr

/-- Resolution order of the `message:text` handler in `src/bot.ts`: the
sender's handle is lowercased (`ctx.from!.username?.toLowerCase() ?? ''`),
then (1) a notified-map hit starts the session, (2) an active-map hit is a
conversation turn after the defensive check that the resolved record's stored
handle matches case-insensitively, (3) the durable-store fallback by handle
covers `notified`/`in_progress` records, and otherwise the message falls
through to the scheduling wizard / default reply (`unresolved`).  The map
repopulation performed on a fallback hit does not change which resolution is
produced and is omitted here. -/
def resolve_inbound (sender_username : String) (s : OrchestratorState) : Resolution :=
  let username := ascii_lower sender_username
  if username == "" then Resolution.unresolved
  else
    match map_get s.notified_interviews username with
    | some interview_id => Resolution.session_start interview_id
    | none =>
      let active_hit :=
        match map_get s.active_interviews username with
        | some interview_id =>
          match db_get_interview s.interviews interview_id with
          | some iv =>
            if ascii_lower iv.candidate_telegram_username == username
            then some interview_id else none
          | none => none
        | none => none
      match active_hit with
      | some interview_id => Resolution.conversation_turn interview_id
      | none =>
        match get_interview_by_candidate_username s.interviews username with
        | some iv =>
          if iv.status == Status.notified then Resolution.session_start iv.id
          else if iv.status == Status.in_progress then Resolution.conversation_turn iv.id
          else Resolution.unresolved
        | none => Resolution.unresolved

/-- The routing key used by the notify trigger, `src/scheduler.ts` line 81:
`const key = interview.candidate_telegram_username;` — the stored display
form, with no lowercasing. -/
def notify_map_key (iv : Interview) : String :=
  iv.candidate_telegram_username

-- ── Intro-phase commit (`handle_candidate_reply`, `src/interviewer.ts`) ─────

/-- A single durable write issued while handling the first candidate reply in
the intro phase.  Each constructor is one `run(...)` statement in `src/db.ts`,
i.e. one atomic persistence step. -/
inductive IntroWrite where
  | write_user_message (text : String)
  | write_profile (p : CandidateProfile)
  | write_phase (ph : Phase)
  | write_phase_and_profile (ph : Phase) (p : CandidateProfile)
  | write_assistant_message (text : String)

/-- The phase and profile columns of one record, the durable state the
atomicity invariant I2 talks about. -/
structure PhaseProfileRecord where
  interview_phase : Phase
  candidate_profile : Option CandidateProfile
  transcript : List (Role × String)
  deriving DecidableEq, Repr

/-- Apply one durable write to the record. -/
def apply_intro_write (r : PhaseProfileRecord) : IntroWrite → PhaseProfileRecord
  | IntroWrite.write_user_message t =>
    { r with transcript := r.transcript ++ [(Role.user, t)] }
  | IntroWrite.write_profile p => { r with candidate_profile := some p }
  | IntroWrite.write_phase ph => { r with interview_phase := ph }
  | IntroWrite.write_phase_and_profile ph p =>
    { r with interview_phase := ph, candidate_profile := some p }
  | IntroWrite.write_assistant_message t =>
    { r with transcript := r.transcript ++ [(Role.assistant, t)] }

/-- The sequence of durable writes performed by the intro branch of
`handle_candidate_reply` (`src/interviewer.ts` 102–121): append the candidate
message, then — after `analyze_self_introduction` returns — persist the
profile with `set_candidate_profile`, persist the phase with
`set_interview_phase` (two separate `UPDATE` statements), and finally append
the generated assistant turn. -/
def handle_candidate_reply_intro_writes (candidate_message : String)
    (profile : CandidateProfile) (reply : String) : List IntroWrite :=
  [IntroWrite.write_user_message candidate_message,
   IntroWrite.write_profile profile,
   IntroWrite.write_phase Phase.questioning,
   IntroWrite.write_assistant_message reply]

/-- The same commit as `src/db.ts`'s `set_phase_and_profile` would perform it:
one atomic `UPDATE` carrying both columns (its doc comment reads "Atomic: set
phase and profile in a single DB write to avoid inconsistent state on
crash"). -/
def atomic_intro_writes (candidate_message : String) (profile : CandidateProfile)
    (reply : String) : List IntroWrite :=
  [IntroWrite.write_user_message candidate_message,
   IntroWrite.write_phase_and_profile Phase.questioning profile,
   IntroWrite.write_assistant_message reply]

/-- Durable state visible after a crash that interrupted the write sequence
after its first `k` writes completed. -/
def crash_state (writes : List IntroWrite) (k : Nat) (r : PhaseProfileRecord) :
    PhaseProfileRecord :=
  (writes.take k).foldl apply_intro_write r

/-- The record states invariant I2 allows: phase still `intro` with no
profile, or phase `questioning` with a profile. -/
def phase_profile_consistent (r : PhaseProfileRecord) : Bool :=
  (r.interview_phase == Phase.intro && r.candidate_profile.isNone)
    || (r.interview_phase == Phase.questioning && r.candidate_profile.isSome)

-- ── Overlapping poll ticks on one due record (`check_and_notify_interviews`) ─

/-- Events of the duplicate-notification race, for one fixed `ready` record
and its candidate key.  A tick first scans the store (`get_due_interviews` —
synchronous, so it snapshots the status at that instant) and later reaches the
record in its loop.  `fire` is the synchronous prefix of the loop body: the
two routing-map membership checks, `update_interview_status(id,'notified')`
and `notified_interviews.set(key, id)` all run before the first `await`, so
they form one atomic step after which the notification send is outstanding.
`send_failed` is the rollback branch of the `catch`: it runs only for a tick
whose send is outstanding, deletes the routing entry and reverts the status to
`ready`. -/
inductive TickEvent where
  | scan (tick : Nat)
  | fire (tick : Nat)
  | send_failed (tick : Nat)
  deriving DecidableEq, Repr

/-- State of the race: the record's durable status, whether its key is in each
routing map, which ticks hold the record in their due snapshot, which ticks
have an outstanding notification send, and how many `ready → notified`
transitions have been committed. -/
structure RaceState where
  status : Status
  in_notified : Bool
  in_active : Bool
  due_snapshot : List Nat
  outstanding : List Nat
  transitions : Nat
  deriving DecidableEq, Repr

/-- Initial state: the record is due (`ready`), both maps lack its key. -/
def race_init : RaceState :=
  { status := Status.ready, in_notified := false, in_active := false,
    due_snapshot := [], outstanding := [], transitions := 0 }

/-- Small-step semantics of the race events. -/
def race_step (st : RaceState) : TickEvent → RaceState
  | TickEvent.scan t =>
    if st.status == Status.ready then { st with due_snapshot := t :: st.due_snapshot }
    else st
  | TickEvent.fire t =>
    if st.due_snapshot.contains t then
      let st1 := { st with due_snapshot := st.due_snapshot.erase t }
      if st.in_notified || st.in_active then st1
      else
        { st1 with status := Status.notified, in_notified := true,
                   outstanding := t :: st1.outstanding,
                   transitions := st1.transitions + 1 }
    else st
  | TickEvent.send_failed t =>
    if st.outstanding.contains t then
      { st with in_notified := false, status := Status.ready,
                outstanding := st.outstanding.erase t }
    else st

/-- Run a sequence of race events. -/
def race_run (events : List TickEvent) (st : RaceState) : RaceState :=
  events.foldl race_step st

/-- Whether an event is the rollback of a failed notification send. -/
def is_send_failure : TickEvent → Bool
  | TickEvent.send_failed _ => true
  | _ => false

-- ── String helpers (JavaScript string operations used by the sources) ───────

/-- JSON whitespace (accepted around tokens by `JSON.parse`). -/
def json_ws_char (c : Char) : Bool :=
  c = ' ' || c = '\t' || c = '\n' || c = '\r'

/-- Skip JSON whitespace. -/
def skip_ws (cs : List Char) : List Char :=
  cs.dropWhile json_ws_char

/-- JavaScript whitespace as used by `String.prototype.trim` and the regex
class `\s` (the code points that occur in practice; the exotic Unicode space
characters behave identically and are omitted). -/
def js_ws_char (c : Char) : Bool :=
  c = ' ' || c = '\t' || c = '\n' || c = '\r'
    || c = Char.ofNat 11 || c = Char.ofNat 12 || c = Char.ofNat 160

/-- `s.trim()`. -/
def js_trim (s : String) : String :=
  String.mk ((s.data.dropWhile js_ws_char).reverse.dropWhile js_ws_char).reverse

/-- `s.startsWith(pat)` (also used to state prefix facts). -/
def str_starts (s pat : String) : Bool :=
  pat.data.isPrefixOf s.data

/-- `s.replace(/^@/, '')`: a non-global regex anchored at the start replaces
exactly one leading `@` when present. -/
def strip_leading_at (s : String) : String :=
  match s.data with
  | '@' :: t => String.mk t
  | _ => s

/-- `s.slice(0, n)`. -/
def js_slice_to (s : String) (n : Nat) : String :=
  String.mk (s.data.take n)

-- ── Regex match models ──────────────────────────────────────────────────────

/-- Longest prefix of `cs` ending in `\x7d` (the closing brace), i.e. the cut
at the last closing brace; `none` when there is none.  This is where the
greedy `[\s\S]*` before the final `\}` of both JSON-extraction regexes ends
its match. -/
def take_through_last_brace (cs : List Char) : Option (List Char) :=
  let r := cs.reverse.dropWhile (fun c => c != '\x7d')
  if r.isEmpty then none else some r.reverse

/-- `raw.match(/\x7b[\s\S]*\x7d/)` from `src/parser.ts` (braces escaped in
this comment): the leftmost match starts at the first opening brace and, the
star being greedy, ends at the last closing brace of the string. -/
def match_any_json (s : String) : Option String :=
  let rest := s.data.dropWhile (fun c => c != '\x7b')
  (take_through_last_brace rest).map String.mk

/-- The literal `"overall_recommendation"` (including the quotes) required
inside the braces by the summary-extraction regex. -/
def summary_key_chars : List Char :=
  "\"overall_recommendation\"".data

/-- Suffix strictly after the first occurrence of `pat` in the list, `none`
when `pat` (nonempty in all uses) does not occur. -/
def after_first_occ (pat : List Char) : List Char → Option (List Char)
  | [] => none
  | c :: t =>
    if pat.isPrefixOf (c :: t) then some ((c :: t).drop pat.length)
    else after_first_occ pat t

/-- Whether a full summary-regex match can start just before `t`: the key
literal occurs in `t` with a closing brace somewhere after it. -/
def summary_feasible (t : List Char) : Bool :=
  match after_first_occ summary_key_chars t with
  | some suffix => suffix.contains '\x7d'
  | none => false

/-- First position from which the summary regex can match: the first opening
brace followed (not necessarily immediately) by the key literal and then a
closing brace. -/
def find_summary_start : List Char → Option (List Char)
  | [] => none
  | c :: t =>
    if c = '\x7b' && summary_feasible t then some (c :: t)
    else find_summary_start t

/-- `full_text.match(/\x7b[\s\S]*"overall_recommendation"[\s\S]*\x7d/)` from
`extract_summary` in `src/interviewer.ts` (braces escaped in this comment):
leftmost feasible opening brace through the last closing brace of the
string. -/
def match_summary_regex (s : String) : Option String :=
  (find_summary_start s.data).bind (fun cs => (take_through_last_brace cs).map String.mk)

-- ── `JSON.parse` model ──────────────────────────────────────────────────────

/-- The single-character string escapes `JSON.parse` accepts. -/
def escape_char_json : Char → Option Char
  | '\"' => some '\"'
  | '\\' => some '\\'
  | '/' => some '/'
  | 'b' => some (Char.ofNat 8)
  | 'f' => some (Char.ofNat 12)
  | 'n' => some '\n'
  | 'r' => some '\r'
  | 't' => some '\t'
  | _ => none

/-- Hexadecimal digit value. -/
def hex_val (c : Char) : Option Nat :=
  if '0' ≤ c ∧ c ≤ '9' then some (c.toNat - '0'.toNat)
  else if 'a' ≤ c ∧ c ≤ 'f' then some (c.toNat - 'a'.toNat + 10)
  else if 'A' ≤ c ∧ c ≤ 'F' then some (c.toNat - 'A'.toNat + 10)
  else none

/-- Body of a JSON string after the opening quote: collect characters until
the closing quote, decoding escapes (`\uXXXX` as a single code unit).  `fuel`
bounds the recursion (callers pass the remaining length plus one, which the
character-consuming recursion never exhausts); it keeps the definition
structurally recursive so that concrete inputs evaluate by reduction. -/
def parse_json_chars (fuel : Nat) (acc : List Char) (cs : List Char) :
    Option (String × List Char) :=
  match fuel with
  | 0 => none
  | fuel + 1 =>
    match cs with
    | [] => none
    | c :: t =>
      if c = '\"' then some (String.mk acc.reverse, t)
      else if c = '\\' then
        match t with
        | [] => none
        | e :: t2 =>
          if e = 'u' then
            match t2 with
            | a :: b :: c2 :: d :: t3 =>
              match hex_val a, hex_val b, hex_val c2, hex_val d with
              | some ha, some hb, some hc, some hd =>
                parse_json_chars fuel
                  (Char.ofNat (((ha * 16 + hb) * 16 + hc) * 16 + hd) :: acc) t3
              | _, _, _, _ => none
            | _ => none
          else
            match escape_char_json e with
            | some ec => parse_json_chars fuel (ec :: acc) t2
            | none => none
      else parse_json_chars fuel (c :: acc) t

/-- Digit run of a number literal. -/
def digits_to_nat (ds : List Char) : Nat :=
  ds.foldl (fun n c => n * 10 + (c.toNat - '0'.toNat)) 0

/-- Optional fraction part `.digits` of a JSON number. -/
def parse_frac_part : List Char → Option (List Char × List Char)
  | '.' :: t =>
    let ds := t.takeWhile Char.isDigit
    if ds.isEmpty then none else some (ds, t.dropWhile Char.isDigit)
  | cs => some ([], cs)

/-- Optional exponent part `[eE][+-]?digits` of a JSON number. -/
def parse_exp_part (cs : List Char) : Option (Int × List Char) :=
  match cs with
  | c :: t =>
    if c = 'e' ∨ c = 'E' then
      let (sign, t2) : Int × List Char :=
        match t with
        | '+' :: r => (1, r)
        | '-' :: r => (-1, r)
        | r => (1, r)
      let ds := t2.takeWhile Char.isDigit
      if ds.isEmpty then none
      else some (sign * Int.ofNat (digits_to_nat ds), t2.dropWhile Char.isDigit)
    else some (0, cs)
  | [] => some (0, [])

/-- A JSON number literal, as an exact fraction:
`ints.fracs × 10^e = (ints·10^k + fracs) · 10^e / 10^k` with `k` the number of
fraction digits, the sign applied to the numerator. -/
def parse_json_number (cs : List Char) : Option (JNum × List Char) :=
  let (neg, cs1) : Bool × List Char :=
    match cs with
    | '-' :: t => (true, t)
    | _ => (false, cs)
  let ints := cs1.takeWhile Char.isDigit
  let cs2 := cs1.dropWhile Char.isDigit
  if ints.isEmpty then none
  else
    match parse_frac_part cs2 with
    | none => none
    | some (fracs, cs3) =>
      match parse_exp_part cs3 with
      | none => none
      | some (e, cs4) =>
        let k := fracs.length
        let base_num : Int :=
          Int.ofNat (digits_to_nat ints * 10 ^ k + digits_to_nat fracs)
        let (mag_num, mag_dpred) : Int × Nat :=
          if 0 ≤ e then (base_num * (10 : Int) ^ e.toNat, 10 ^ k - 1)
          else (base_num, 10 ^ k * 10 ^ (-e).toNat - 1)
        some ({ num := if neg then -mag_num else mag_num, dpred := mag_dpred }, cs4)

/-- What the recursive JSON parser is currently reading: a value, the members
of an object (accumulator of fields read so far), or the elements of an array.
A single recursion over these modes keeps the parser structurally recursive on
its fuel. -/
inductive JsonParseMode where
  | value
  | members (acc : List (String × Json))
  | elems (acc : List Json)

/-- The recursive JSON parser.  `fuel` bounds the recursion depth;
`json_parse` passes `length + 1`, which the nesting of any input never
exceeds, so fuel exhaustion never fires on inputs `JSON.parse` would
accept. -/
def parse_json_core (fuel : Nat) (mode : JsonParseMode) (cs : List Char) :
    Option (Json × List Char) :=
  match fuel with
  | 0 => none
  | fuel + 1 =>
    match mode with
    | JsonParseMode.value =>
      match skip_ws cs with
      | [] => none
      | c :: t =>
        if c = '\x7b' then
          match skip_ws t with
          | '\x7d' :: t2 => some (Json.obj [], t2)
          | t2 => parse_json_core fuel (JsonParseMode.members []) t2
        else if c = '[' then
          match skip_ws t with
          | ']' :: t2 => some (Json.arr [], t2)
          | t2 => parse_json_core fuel (JsonParseMode.elems []) t2
        else if c = '\"' then
          (parse_json_chars (t.length + 1) [] t).map (fun p => (Json.str p.1, p.2))
        else if c = 't' then
          if ['r', 'u', 'e'].isPrefixOf t then some (Json.bool true, t.drop 3) else none
        else if c = 'f' then
          if ['a', 'l', 's', 'e'].isPrefixOf t then some (Json.bool false, t.drop 4) else none
        else if c = 'n' then
          if ['u', 'l', 'l'].isPrefixOf t then some (Json.null, t.drop 3) else none
        else
          (parse_json_number (c :: t)).map (fun p => (Json.num p.1, p.2))
    | JsonParseMode.members acc =>
      match skip_ws cs with
      | '\"' :: t =>
        match parse_json_chars (t.length + 1) [] t with
        | none => none
        | some (key, t2) =>
          match skip_ws t2 with
          | ':' :: t3 =>
            match parse_json_core fuel JsonParseMode.value t3 with
            | none => none
            | some (v, t4) =>
              match skip_ws t4 with
              | ',' :: t5 => parse_json_core fuel (JsonParseMode.members (acc ++ [(key, v)])) t5
              | '\x7d' :: t5 => some (Json.obj (acc ++ [(key, v)]), t5)
              | _ => none
          | _ => none
      | _ => none
    | JsonParseMode.elems acc =>
      match parse_json_core fuel JsonParseMode.value cs with
      | none => none
      | some (v, t) =>
        match skip_ws t with
        | ',' :: t2 => parse_json_core fuel (JsonParseMode.elems (acc ++ [v])) t2
        | ']' :: t2 => some (Json.arr (acc ++ [v]), t2)
        | _ => none

/-- One JSON value. -/
def parse_json_value (fuel : Nat) (cs : List Char) : Option (Json × List Char) :=
  parse_json_core fuel JsonParseMode.value cs

/-- `JSON.parse`: parse one value and require only whitespace after it. -/
def json_parse (s : String) : Option Json :=
  match parse_json_value (s.data.length + 1) s.data with
  | some (j, rest) => if (skip_ws rest).isEmpty then some j else none
  | none => none

-- ── `Date.UTC` model ────────────────────────────────────────────────────────

/-- Days since the Unix epoch of a civil date (proleptic Gregorian), the
standard days-from-civil computation used by every date library.  `m` is
1-based; `d` may exceed the month length (callers pass day 1 and add the
offset). -/
def days_from_civil (y m d : Int) : Int :=
  let yy := if m ≤ 2 then y - 1 else y
  let era := Int.fdiv yy 400
  let yoe := yy - era * 400
  let mp := if 2 < m then m - 3 else m + 9
  let doy := Int.fdiv (153 * mp + 2) 5 + d - 1
  let doe := yoe * 365 + Int.fdiv yoe 4 - Int.fdiv yoe 100 + doy
  era * 146097 + doe - 719468

/-- `Date.UTC(year, monthIndex, day, hour, minute)`: month overflow carries
into the year, day/hour/minute overflow (and the negative hour produced by
the CST→UTC shift) are plain offsets, and two-digit years map to 19xx. -/
def js_date_utc (year monthIndex day hour minute : Int) : Int :=
  let y0 := if 0 ≤ year ∧ year ≤ 99 then year + 1900 else year
  let y1 := y0 + Int.fdiv monthIndex 12
  let m1 := Int.emod monthIndex 12 + 1
  (days_from_civil y1 m1 1 + (day - 1)) * 86400000 + hour * 3600000 + minute * 60000

/-- Numeric value of a decimal digit character. -/
def digit_val (c : Char) : Int :=
  Int.ofNat (c.toNat - '0'.toNat)

/-- The `scheduled_time_cst` format check of `src/parser.ts`:
`^(\d\x7b4\x7d)-(\d\x7b2\x7d)-(\d\x7b2\x7d)\s+(\d\x7b2\x7d):(\d\x7b2\x7d)$`
(brace quantifiers escaped in this comment), yielding the five captured
numbers `(year, month, day, hour, minute)`. -/
def parse_cst_time (s : String) : Option (Int × Int × Int × Int × Int) :=
  match s.data with
  | y1 :: y2 :: y3 :: y4 :: '-' :: mo1 :: mo2 :: '-' :: d1 :: d2 :: rest =>
    if y1.isDigit && y2.isDigit && y3.isDigit && y4.isDigit
        && mo1.isDigit && mo2.isDigit && d1.isDigit && d2.isDigit then
      match rest with
      | w :: rest1 =>
        if js_ws_char w then
          match rest1.dropWhile js_ws_char with
          | h1 :: h2 :: ':' :: mi1 :: mi2 :: [] =>
            if h1.isDigit && h2.isDigit && mi1.isDigit && mi2.isDigit then
              some (digit_val y1 * 1000 + digit_val y2 * 100 + digit_val y3 * 10 + digit_val y4,
                    digit_val mo1 * 10 + digit_val mo2,
                    digit_val d1 * 10 + digit_val d2,
                    digit_val h1 * 10 + digit_val h2,
                    digit_val mi1 * 10 + digit_val mi2)
            else none
          | _ => none
        else none
      | [] => none
    else none
  | _ => none

/-- `Math.round`: round half toward positive infinity —
`⌊q + 1/2⌋ = ⌊(2·num + den) / (2·den)⌋` with floor division. -/
def js_round (q : JNum) : Int :=
  Int.fdiv (2 * q.num + q.den) (2 * q.den)

-- ── Model responses (`response.content` blocks) ─────────────────────────────

/-- A content block of a model response: the code only distinguishes
`type === 'text'` blocks from everything else (thinking blocks, tool use). -/
inductive ContentBlock where
  | text_block (t : String)
  | thinking_block (t : String)
  | other_block
  deriving DecidableEq, Repr

/-- A model response; `content` is `Option`al because the code guards with
`response.content ?? []`. -/
structure AnthropicMessage where
  content : Option (List ContentBlock)
  deriving DecidableEq, Repr

/-- The text of a text block. -/
def text_of_block : ContentBlock → Option String
  | ContentBlock.text_block t => some t
  | _ => none

/-- `(response.content ?? []).filter(b => b.type === 'text').map(b => b.text).join('\n')`
as in `extract_summary` and `analyze_self_introduction`. -/
def joined_text_lf (m : AnthropicMessage) : String :=
  String.intercalate "\n" ((m.content.getD []).filterMap text_of_block)

/-- The same with `.join('')`, as in `parse_schedule_request`. -/
def joined_text (m : AnthropicMessage) : String :=
  String.join ((m.content.getD []).filterMap text_of_block)

-- ── `extract_summary` (`src/interviewer.ts` 272–301) ────────────────────────

/-- The four `InterviewCategory` values. -/
def summary_categories : List String :=
  ["ai_fundamentals", "agent_frameworks", "system_operations", "business_communication"]

/-- The fallback summary object built when no report can be parsed, field for
field as in the source: `no_hire`, score 0, a fixed note per category, one
weakness entry, and the raw text truncated with `slice(0, 500)`. -/
def fallback_summary (full_text : String) (now : Int) : Json :=
  Json.obj
    [("overall_recommendation", Json.str "no_hire"),
     ("overall_score", Json.num ⟨0, 0⟩),
     ("category_scores", Json.obj (summary_categories.map (fun c =>
        (c, Json.obj [("score", Json.num ⟨0, 0⟩), ("notes", Json.str "解析失败，请人工评估")])))),
     ("strengths", Json.arr []),
     ("weaknesses", Json.arr [Json.str "评估报告解析失败，请查看原始对话记录"]),
     ("notable_quotes", Json.arr []),
     ("detailed_assessment", Json.str (js_slice_to full_text 500)),
     ("generated_at", Json.num ⟨now, 0⟩)]

/-- `extract_summary`: join the text blocks, try the summary regex, and
`JSON.parse` the match — the parsed value is returned as-is (the source casts
it with `as InterviewSummary`, which performs no runtime validation);
otherwise the fallback object is built. -/
def extract_summary (response : AnthropicMessage) (now : Int) : Json :=
  let full_text := joined_text_lf response
  match match_summary_regex full_text with
  | some candidate =>
    match json_parse candidate with
    | some j => j
    | none => fallback_summary full_text now
  | none => fallback_summary full_text now

-- ── Structural completeness of a summary (the `InterviewSummary` interface) ─

/-- Whether a JSON value is a string. -/
def is_json_string (j : Json) : Bool :=
  match j with
  | Json.str _ => true
  | _ => false

/-- Whether a JSON value is a number. -/
def is_json_number (j : Json) : Bool :=
  match j with
  | Json.num _ => true
  | _ => false

/-- Whether a JSON value is an array of strings. -/
def is_string_array (j : Json) : Bool :=
  match j with
  | Json.arr xs => xs.all is_json_string
  | _ => false

/-- Whether a JSON value is a `CategoryScore` (`score` number, `notes`
string). -/
def is_category_score (j : Json) : Bool :=
  (json_get j "score").any is_json_number && (json_get j "notes").any is_json_string

/-- Whether a JSON value is one of the four `Recommendation` strings. -/
def is_recommendation (j : Json) : Bool :=
  match j with
  | Json.str s =>
    s == "strong_hire" || s == "hire" || s == "no_hire" || s == "strong_no_hire"
  | _ => false

/-- Structural completeness against the `InterviewSummary` interface of
`src/types.ts`: every field present with the declared shape. -/
def is_complete_summary (j : Json) : Bool :=
  (json_get j "overall_recommendation").any is_recommendation
    && (json_get j "overall_score").any is_json_number
    && (match json_get j "category_scores" with
        | some cs => summary_categories.all (fun c => (json_get cs c).any is_category_score)
        | none => false)
    && (json_get j "strengths").any is_string_array
    && (json_get j "weaknesses").any is_string_array
    && (json_get j "notable_quotes").any is_string_array
    && (json_get j "detailed_assessment").any is_json_string
    && (json_get j "generated_at").any is_json_number

-- ── `parse_schedule_request` (`src/parser.ts`) ──────────────────────────────

/-- `ParsedSchedule` from `src/parser.ts`: all fields optional. -/
structure ParsedSchedule where
  candidate_name : Option String := none
  candidate_telegram_username : Option String := none
  scheduled_time : Option Int := none
  duration_minutes : Option Int := none
  deriving DecidableEq, Repr

/-- The `parsed.field && typeof parsed.field === 'string'` guard: the field
must exist, be a string, and be truthy (nonempty). -/
def get_truthy_string_field (j : Json) (key : String) : Option String :=
  match json_get j key with
  | some (Json.str s) => if s != "" then some s else none
  | _ => none

/-- Field validation of `parse_schedule_request` on a parsed JSON object:
`candidate_name` trimmed; `candidate_telegram_username` trimmed with one
leading `@` stripped; `scheduled_time_cst` matched against the fixed format,
converted from CST with `Date.UTC(y, m-1, d, h-8, min)` and kept only when in
the future; `duration_minutes` kept when a number in `[10, 120]` and then
rounded. -/
def parse_schedule_fields (j : Json) (now : Int) : ParsedSchedule :=
  { candidate_name := (get_truthy_string_field j "candidate_name").map js_trim,
    candidate_telegram_username :=
      (get_truthy_string_field j "candidate_telegram_username").map
        (fun s => strip_leading_at (js_trim s)),
    scheduled_time :=
      match get_truthy_string_field j "scheduled_time_cst" with
      | some s =>
        match parse_cst_time s with
        | some (y, mo, d, h, mi) =>
          let utc_ms := js_date_utc y (mo - 1) d (h - 8) mi
          if now < utc_ms then some utc_ms else none
        | none => none
      | none => none,
    duration_minutes :=
      match json_get j "duration_minutes" with
      | some (Json.num q) =>
        if jnum_le ⟨10, 0⟩ q ∧ jnum_le q ⟨120, 0⟩ then some (js_round q) else none
      | _ => none }

/-- `parse_schedule_request`: join the text blocks of the model response, find
a JSON-looking substring, `JSON.parse` it (an exception yields the empty
result, as does a missing match), then validate fields.  `now` is
`Date.now()` at the validation of the scheduled time. -/
def parse_schedule_request (response : AnthropicMessage) (now : Int) : ParsedSchedule :=
  let raw := joined_text response
  match match_any_json raw with
  | none => {}
  | some candidate =>
    match json_parse candidate with
    | none => {}
    | some j => parse_schedule_fields j now

-- ── Concrete fixtures for instantiations ────────────────────────────────────

/-- A sample candidate profile. -/
def sample_profile : CandidateProfile :=
  { tech_stack := ["Python"], years_of_experience := some 5,
    project_highlights := ["RAG pipeline"], suggested_focus_areas := ["agent_frameworks"] }

/-- A sample interview record. -/
def sample_interview : Interview :=
  { id := 1, telegram_user_id := "9000", candidate_name := "Alice",
    candidate_telegram_username := "alice", candidate_telegram_id := "555",
    scheduled_time := 1000, duration_minutes := 30, status := Status.ready,
    interview_phase := Phase.intro, candidate_profile := none, research_notes := none,
    interview_questions := none, summary := none }

-- ════════════════════════════════ Theorems ═════════════════════════════════

-- ── Shared lemmas about the store and map models ────────────────────────────

/-- Reading a record back after an id-preserving update rewrites the record
the same read returned before. -/
theorem db_get_interview_update (ivs : List Interview) (id : Nat) (f : Interview → Interview)
    (hid : ∀ x, (f x).id = x.id) :
    db_get_interview (db_update_record ivs id f) id = (db_get_interview ivs id).map f := by
  induction ivs with
  | nil => rfl
  | cons a t ih =>
    simp only [db_get_interview, db_update_record, List.map_cons] at *
    by_cases h : (a.id == id) = true
    · have hf : ((f a).id == id) = true := by rw [hid]; exact h
      simp [List.find?, h, hf]
    · have h2 : (a.id == id) = false := by simpa using h
      have hf2 : ((f a).id == id) = false := by rw [hid]; exact h2
      simp only [h2, Bool.false_eq_true, if_false, List.find?, hf2]
      exact ih

/-- A deleted key is absent. -/
theorem map_has_delete (m : List (String × Nat)) (k : String) :
    map_has (map_delete m k) k = false := by
  induction m with
  | nil => rfl
  | cons a t ih =>
    simp only [map_delete, List.filter] at *
    by_cases h : (a.1 == k) = true
    · simp only [bne, h, Bool.not_true, if_false, Bool.false_eq_true]
      exact ih
    · have h2 : (a.1 == k) = false := by simpa using h
      simp only [bne, h2, Bool.not_false, if_true, map_has, List.any_cons, Bool.or_eq_true]
      simp only [map_has] at ih
      simp [h2, ih]

/-- Unfolding `map_has` over a cons cell. -/
theorem map_has_cons (x : String × Nat) (m : List (String × Nat)) (k : String) :
    map_has (x :: m) k = ((x.1 == k) || map_has m k) := rfl

/-- Auxiliary step for `map_has_set`: rewriting the entry of a present key
keeps the key present. -/
theorem map_has_map_entry (m : List (String × Nat)) (k : String) (v : Nat)
    (h : map_has m k = true) :
    map_has (m.map (fun p => if p.1 == k then (k, v) else p)) k = true := by
  induction m with
  | nil => simp [map_has] at h
  | cons a t ih =>
    rw [List.map_cons, map_has_cons]
    by_cases h1 : (a.1 == k) = true
    · have hga : (if (a.1 == k) = true then (k, v) else a) = (k, v) := if_pos h1
      simp only [hga]
      simp
    · have h2 : (a.1 == k) = false := by simpa using h1
      have ht : map_has t k = true := by
        rw [map_has_cons, h2, Bool.false_or] at h
        exact h
      rw [show (if (a.1 == k) = true then (k, v) else a) = a from if_neg (by simp [h2])]
      rw [h2, Bool.false_or]
      exact ih ht

/-- A set key is present. -/
theorem map_has_set (m : List (String × Nat)) (k : String) (v : Nat) :
    map_has (map_set m k v) k = true := by
  unfold map_set
  by_cases h : map_has m k = true
  · rw [if_pos h]; exact map_has_map_entry m k v h
  · have h2 : map_has m k = false := by simpa using h
    rw [if_neg (by simp [h2])]
    simp [map_has, List.any_append]

-- ── C9 ──────────────────────────────────────────────────────────────────────

/-- C9: `start_interview_for_user(key)` with a handle absent from the
notified map returns `null` and leaves the routing maps, every durable
record and the transcript untouched. -/
theorem start_interview_no_match_is_noop (key : String) (opening : Option String)
    (s : OrchestratorState) (h : map_get s.notified_interviews key = none) :
    start_interview_for_user key opening s = (none, s) := by
  unfold start_interview_for_user
  rw [h]

/-- Witness for C9: a concrete state whose notified map lacks the handle. -/
theorem start_interview_no_match_is_noop_witness :
    map_get [("alice", 1)] "bob" = none ∧
    start_interview_for_user "bob" (some "hi")
        { interviews := [sample_interview], transcript := [],
          active_interviews := [("carol", 7)], notified_interviews := [("alice", 1)] }
      = (none,
         { interviews := [sample_interview], transcript := [],
           active_interviews := [("carol", 7)], notified_interviews := [("alice", 1)] }) :=
  ⟨rfl, start_interview_no_match_is_noop "bob" (some "hi") _ rfl⟩

-- ── C1 ──────────────────────────────────────────────────────────────────────

/-- C1: the intro-phase commit is not atomic.  `handle_candidate_reply`
persists the profile with `set_candidate_profile` and the phase with a second,
separate `set_interview_phase` write; a crash between the two (crash point 2,
right after the profile write) leaves the record with `Phase=Intro` and a
non-null profile — a state the claim says can never be observed. -/
theorem intro_commit_crash_divergence :
    (crash_state (handle_candidate_reply_intro_writes "大家好" sample_profile "谢谢")
        2 ⟨Phase.intro, none, []⟩).interview_phase = Phase.intro
    ∧ (crash_state (handle_candidate_reply_intro_writes "大家好" sample_profile "谢谢")
        2 ⟨Phase.intro, none, []⟩).candidate_profile = some sample_profile
    ∧ phase_profile_consistent
        (crash_state (handle_candidate_reply_intro_writes "大家好" sample_profile "谢谢")
          2 ⟨Phase.intro, none, []⟩) = false :=
  ⟨rfl, rfl, rfl⟩

/-- Contrast for C1 (not a claim theorem): committing through `db.ts`'s
`set_phase_and_profile` — one write carrying both columns — keeps invariant I2
at every crash point. -/
theorem atomic_intro_commit_consistent (msg reply : String) (p : CandidateProfile)
    (k : Nat) (r0 : PhaseProfileRecord)
    (h0 : phase_profile_consistent r0 = true) :
    phase_profile_consistent (crash_state (atomic_intro_writes msg p reply) k r0) = true := by
  match k with
  | 0 => simpa [crash_state] using h0
  | 1 =>
    simp only [crash_state, atomic_intro_writes, List.take, List.foldl, apply_intro_write]
    simpa [phase_profile_consistent] using h0
  | 2 =>
    simp [crash_state, atomic_intro_writes, List.take, List.foldl, apply_intro_write,
      phase_profile_consistent]
  | n + 3 =>
    simp [crash_state, atomic_intro_writes, List.take, List.foldl, apply_intro_write,
      phase_profile_consistent]

/-- Witness for the contrast theorem. -/
theorem atomic_intro_commit_consistent_witness :
    phase_profile_consistent
      (crash_state (atomic_intro_writes "hi" sample_profile "ok") 1 ⟨Phase.intro, none, []⟩)
      = true :=
  atomic_intro_commit_consistent "hi" "ok" sample_profile 1 ⟨Phase.intro, none, []⟩ rfl

-- ── C3 ──────────────────────────────────────────────────────────────────────

/-- C3: cancelling a `notified` interview does not remove its routing entry.
The handler deletes `notified_interviews[user_id]` — the admin's numeric id —
instead of the candidate handle, so after a successful cancellation the
durable status is `cancelled` while the awaiting map still holds the
candidate's entry, contradicting the claimed map/status mirroring. -/
theorem cancel_leaves_routing_entry :
    (cancel_command_by_id "9000" 1
        { interviews := [{ sample_interview with status := Status.notified }],
          transcript := [], active_interviews := [],
          notified_interviews := [("alice", 1)] }).2 = true
    ∧ (db_get_interview
        (cancel_command_by_id "9000" 1
          { interviews := [{ sample_interview with status := Status.notified }],
            transcript := [], active_interviews := [],
            notified_interviews := [("alice", 1)] }).1.interviews 1).map Interview.status
        = some Status.cancelled
    ∧ map_has
        (cancel_command_by_id "9000" 1
          { interviews := [{ sample_interview with status := Status.notified }],
            transcript := [], active_interviews := [],
            notified_interviews := [("alice", 1)] }).1.notified_interviews "alice" = true :=
  ⟨rfl, rfl, rfl⟩

-- ── C4 ──────────────────────────────────────────────────────────────────────

/-- C4: candidate handles are not compared case-insensitively end to end.
The notify trigger keys the awaiting map with the stored display form
(`Alice`), while the inbound dispatcher lowercases the sender's handle and the
durable fallback compares with SQLite's exact BINARY collation — so a message
from the very candidate (handle differing only in case after the dispatcher's
lowercasing) resolves to nothing. -/
theorem case_insensitive_dispatch_divergence :
    map_has
      (check_and_notify_record
        { sample_interview with candidate_telegram_username := "Alice" } true
        { interviews := [{ sample_interview with candidate_telegram_username := "Alice" }],
          transcript := [], active_interviews := [], notified_interviews := [] }).1.notified_interviews
      "Alice" = true
    ∧ (db_get_interview
        (check_and_notify_record
          { sample_interview with candidate_telegram_username := "Alice" } true
          { interviews := [{ sample_interview with candidate_telegram_username := "Alice" }],
            transcript := [], active_interviews := [], notified_interviews := [] }).1.interviews
        1).map Interview.status = some Status.notified
    ∧ ascii_lower "Alice" = "alice"
    ∧ resolve_inbound "Alice"
        (check_and_notify_record
          { sample_interview with candidate_telegram_username := "Alice" } true
          { interviews := [{ sample_interview with candidate_telegram_username := "Alice" }],
            transcript := [], active_interviews := [], notified_interviews := [] }).1
        = Resolution.unresolved :=
  ⟨rfl, rfl, rfl, rfl⟩

-- ── More shared store lemmas ────────────────────────────────────────────────

/-- Reading back after `update_interview_status`. -/
theorem db_get_status_update (ivs : List Interview) (id : Nat) (st : Status) :
    db_get_interview (db_update_status ivs id st) id
      = (db_get_interview ivs id).map (fun x => { x with status := st }) :=
  db_get_interview_update ivs id _ (fun _ => rfl)

/-- Reading back after `set_research`. -/
theorem db_get_research_update (ivs : List Interview) (id : Nat) (notes : String)
    (qs : List String) :
    db_get_interview (db_set_research ivs id notes qs) id
      = (db_get_interview ivs id).map
          (fun x => { x with research_notes := some notes, interview_questions := some qs }) :=
  db_get_interview_update ivs id _ (fun _ => rfl)

/-- Reading back after `set_summary`. -/
theorem db_get_summary_update (ivs : List Interview) (id : Nat) (j : Json) :
    db_get_interview (db_set_summary ivs id j) id
      = (db_get_interview ivs id).map (fun x => { x with summary := some j }) :=
  db_get_interview_update ivs id _ (fun _ => rfl)

-- ── C7 ──────────────────────────────────────────────────────────────────────

/-- C7: with the routing maps free of the candidate's key, (a) when the
platform identity is unknown the notify trigger sends nothing to the
candidate, sends the owner exactly the admin notification carrying the
not-yet-registered warning, and still commits `notified` with the routing
entry in place; (b) when the identity is known and delivery to the candidate
fails, the status reverts to `ready` and the handle is absent from both
routing maps, with no message recorded. -/
theorem notify_unknown_identity_and_failure_rollback
    (s : OrchestratorState) (iv : Interview) (send_ok : Bool)
    (hA : map_has s.active_interviews iv.candidate_telegram_username = false)
    (hN : map_has s.notified_interviews iv.candidate_telegram_username = false)
    (hiv : db_get_interview s.interviews iv.id = some iv) :
    (iv.candidate_telegram_id = "" →
       (check_and_notify_record iv send_ok s).2
           = [SentMsg.notify_admin iv.telegram_user_id true]
       ∧ (db_get_interview (check_and_notify_record iv send_ok s).1.interviews iv.id).map
           Interview.status = some Status.notified
       ∧ map_has (check_and_notify_record iv send_ok s).1.notified_interviews
           iv.candidate_telegram_username = true)
    ∧ (iv.candidate_telegram_id ≠ "" → send_ok = false →
       (db_get_interview (check_and_notify_record iv send_ok s).1.interviews iv.id).map
           Interview.status = some Status.ready
       ∧ map_has (check_and_notify_record iv send_ok s).1.notified_interviews
           iv.candidate_telegram_username = false
       ∧ map_has (check_and_notify_record iv send_ok s).1.active_interviews
           iv.candidate_telegram_username = false
       ∧ (check_and_notify_record iv send_ok s).2 = []) := by
  constructor
  · intro hid
    have hbne : (iv.candidate_telegram_id != "") = false := by
      simp [hid]
    refine ⟨?_, ?_, ?_⟩
    · simp only [check_and_notify_record, hA, hN, hbne, Bool.false_eq_true, if_false]
    · simp only [check_and_notify_record, hA, hN, hbne, Bool.false_eq_true, if_false]
      rw [db_get_status_update, hiv]
      rfl
    · simp only [check_and_notify_record, hA, hN, hbne, Bool.false_eq_true, if_false]
      exact map_has_set _ _ _
  · intro hneq hfail
    have hbne : (iv.candidate_telegram_id != "") = true := by
      simpa using hneq
    subst hfail
    refine ⟨?_, ?_, ?_, ?_⟩
    · simp only [check_and_notify_record, hA, hN, hbne, Bool.false_eq_true, if_false,
        if_true]
      rw [db_get_status_update, db_get_status_update, hiv]
      rfl
    · simp only [check_and_notify_record, hA, hN, hbne, Bool.false_eq_true, if_false,
        if_true]
      exact map_has_delete _ _
    · simp only [check_and_notify_record, hA, hN, hbne, Bool.false_eq_true, if_false,
        if_true]
    · simp only [check_and_notify_record, hA, hN, hbne, Bool.false_eq_true, if_false,
        if_true]

/-- Witness for C7: both branches at concrete inputs — an unregistered
candidate (empty platform id) and a registered one with a failing send. -/
theorem notify_unknown_identity_and_failure_rollback_witness :
    ((check_and_notify_record { sample_interview with candidate_telegram_id := "" } true
        { interviews := [{ sample_interview with candidate_telegram_id := "" }],
          transcript := [], active_interviews := [], notified_interviews := [] }).2
      = [SentMsg.notify_admin "9000" true])
    ∧ map_has (check_and_notify_record sample_interview false
        { interviews := [sample_interview], transcript := [],
          active_interviews := [], notified_interviews := [] }).1.notified_interviews
        "alice" = false := by
  constructor
  · exact ((notify_unknown_identity_and_failure_rollback
      { interviews := [{ sample_interview with candidate_telegram_id := "" }],
        transcript := [], active_interviews := [], notified_interviews := [] }
      { sample_interview with candidate_telegram_id := "" } true rfl rfl rfl).1 rfl).1
  · exact ((notify_unknown_identity_and_failure_rollback
      { interviews := [sample_interview], transcript := [],
        active_interviews := [], notified_interviews := [] }
      sample_interview false rfl rfl rfl).2 (by decide) rfl).2.1

-- ── C5 ──────────────────────────────────────────────────────────────────────

/-- C5: `finish_interview` advances the status to `completed` before and
regardless of evaluation: when report generation throws or the report send
fails, the status is still `completed`, the transcript is untouched, the
failure notice is sent to the admin chat, and on generation failure no summary
is persisted; completed records match none of the five store scan predicates,
so no poll tick ever retries the evaluation. -/
theorem finish_interview_eval_failure_asymmetry
    (s : OrchestratorState) (interview_id : Nat) (admin : String) (iv : Interview)
    (summary_result : Option Json) (report_send_ok : Bool)
    (hiv : db_get_interview s.interviews interview_id = some iv) :
    ((db_get_interview
        (finish_interview interview_id admin summary_result report_send_ok s).1.interviews
        interview_id).map Interview.status = some Status.completed)
    ∧ (finish_interview interview_id admin summary_result report_send_ok s).1.transcript
        = s.transcript
    ∧ (summary_result = none →
         SentMsg.summary_error admin interview_id
             ∈ (finish_interview interview_id admin summary_result report_send_ok s).2
         ∧ (db_get_interview
             (finish_interview interview_id admin summary_result report_send_ok s).1.interviews
             interview_id).map Interview.summary = some iv.summary)
    ∧ (report_send_ok = false →
         SentMsg.summary_error admin interview_id
             ∈ (finish_interview interview_id admin summary_result report_send_ok s).2)
    ∧ (∀ record : Interview, ∀ now lead : Int, record.status = Status.completed →
         due_pred now record = false ∧ pending_research_pred now lead record = false
         ∧ reminder_pred now record = false ∧ in_progress_pred record = false
         ∧ notified_pred record = false) := by
  refine ⟨?_, ?_, ?_, ?_, ?_⟩
  · cases summary_result with
    | none =>
      simp only [finish_interview, hiv]
      rw [db_get_status_update, hiv]
      rfl
    | some j =>
      cases report_send_ok with
      | true =>
        simp only [finish_interview, hiv, if_true, eq_self_iff_true]
        rw [db_get_summary_update, db_get_status_update, hiv]
        rfl
      | false =>
        simp only [finish_interview, hiv, Bool.false_eq_true, if_false]
        rw [db_get_summary_update, db_get_status_update, hiv]
        rfl
  · cases summary_result with
    | none => simp only [finish_interview, hiv]
    | some j =>
      cases report_send_ok with
      | true => simp only [finish_interview, hiv, if_true, eq_self_iff_true]
      | false => simp only [finish_interview, hiv, Bool.false_eq_true, if_false]
  · intro hnone
    subst hnone
    constructor
    · simp only [finish_interview, hiv]
      simp [List.mem_append]
    · simp only [finish_interview, hiv]
      rw [db_get_status_update, hiv]
      rfl
  · intro hfail
    subst hfail
    cases summary_result with
    | none =>
      simp only [finish_interview, hiv]
      simp [List.mem_append]
    | some j =>
      simp only [finish_interview, hiv, Bool.false_eq_true, if_false]
      simp [List.mem_append]
  · intro record now lead hst
    simp [due_pred, pending_research_pred, reminder_pred, in_progress_pred, notified_pred, hst]

/-- Witness for C5: evaluation fails on a concrete in-progress interview. -/
theorem finish_interview_eval_failure_asymmetry_witness :
    (db_get_interview
        (finish_interview 1 "admin" none true
          { interviews := [{ sample_interview with status := Status.in_progress }],
            transcript := [⟨1, Role.assistant, "hello"⟩],
            active_interviews := [("alice", 1)], notified_interviews := [] }).1.interviews
        1).map Interview.status = some Status.completed
    ∧ SentMsg.summary_error "admin" 1
        ∈ (finish_interview 1 "admin" none true
          { interviews := [{ sample_interview with status := Status.in_progress }],
            transcript := [⟨1, Role.assistant, "hello"⟩],
            active_interviews := [("alice", 1)], notified_interviews := [] }).2 := by
  constructor
  · exact (finish_interview_eval_failure_asymmetry
      { interviews := [{ sample_interview with status := Status.in_progress }],
        transcript := [⟨1, Role.assistant, "hello"⟩],
        active_interviews := [("alice", 1)], notified_interviews := [] }
      1 "admin" { sample_interview with status := Status.in_progress } none true rfl).1
  · exact ((finish_interview_eval_failure_asymmetry
      { interviews := [{ sample_interview with status := Status.in_progress }],
        transcript := [⟨1, Role.assistant, "hello"⟩],
        active_interviews := [("alice", 1)], notified_interviews := [] }
      1 "admin" { sample_interview with status := Status.in_progress } none true rfl).2.2.1
      rfl).1

-- ── C6 ──────────────────────────────────────────────────────────────────────

/-- C6: a Research Stage failure reverts the record to `pending` and notifies
the owner of the failure; the reverted record satisfies the research scan
predicate again (given its scheduled time is inside the lead window), and a
successful second attempt leaves the record `ready` with the research notes
and a non-null question set persisted, the owner having received the failure
notice on the first attempt and the success notice on the second. -/
theorem research_failure_reverts_then_succeeds
    (ivs : List Interview) (iv : Interview) (notes : String) (questions : List String)
    (hiv : db_get_interview ivs iv.id = some iv) :
    db_get_interview (process_research_record iv ResearchOutcome.research_fails ivs).1 iv.id
        = some { iv with status := Status.pending }
    ∧ SentMsg.research_error iv.telegram_user_id
        ∈ (process_research_record iv ResearchOutcome.research_fails ivs).2
    ∧ (∀ now lead : Int, iv.scheduled_time ≤ now + lead * 3600000 →
         pending_research_pred now lead { iv with status := Status.pending } = true)
    ∧ (db_get_interview
        (process_research_record { iv with status := Status.pending }
          (ResearchOutcome.success notes questions)
          (process_research_record iv ResearchOutcome.research_fails ivs).1).1 iv.id).map
        Interview.status = some Status.ready
    ∧ (db_get_interview
        (process_research_record { iv with status := Status.pending }
          (ResearchOutcome.success notes questions)
          (process_research_record iv ResearchOutcome.research_fails ivs).1).1 iv.id).map
        Interview.research_notes = some (some notes)
    ∧ (db_get_interview
        (process_research_record { iv with status := Status.pending }
          (ResearchOutcome.success notes questions)
          (process_research_record iv ResearchOutcome.research_fails ivs).1).1 iv.id).map
        Interview.interview_questions = some (some questions)
    ∧ SentMsg.research_done iv.telegram_user_id questions.length
        ∈ (process_research_record { iv with status := Status.pending }
            (ResearchOutcome.success notes questions)
            (process_research_record iv ResearchOutcome.research_fails ivs).1).2 := by
  have h1a : db_get_interview
      (db_update_status (db_update_status ivs iv.id Status.researching) iv.id Status.pending)
      iv.id = some { iv with status := Status.pending } := by
    rw [db_get_status_update, db_get_status_update, hiv]
    rfl
  have h1 : db_get_interview
      (process_research_record iv ResearchOutcome.research_fails ivs).1 iv.id
      = some { iv with status := Status.pending } := by
    simpa only [process_research_record] using h1a
  have h2 : db_get_interview
      (process_research_record { iv with status := Status.pending }
        (ResearchOutcome.success notes questions)
        (process_research_record iv ResearchOutcome.research_fails ivs).1).1 iv.id
      = some { iv with status := Status.ready, research_notes := some notes,
                       interview_questions := some questions } := by
    simp only [process_research_record]
    rw [db_get_status_update, db_get_research_update, db_get_status_update, h1a]
    rfl
  refine ⟨h1, ?_, ?_, ?_, ?_, ?_, ?_⟩
  · simp [process_research_record]
  · intro now lead h
    simp [pending_research_pred, h]
  · rw [h2]; rfl
  · rw [h2]; rfl
  · rw [h2]; rfl
  · simp [process_research_record]

/-- Witness for C6: a concrete pending interview, first attempt fails, second
succeeds. -/
theorem research_failure_reverts_then_succeeds_witness :
    SentMsg.research_error "9000"
        ∈ (process_research_record { sample_interview with status := Status.pending }
            ResearchOutcome.research_fails
            [{ sample_interview with status := Status.pending }]).2
    ∧ (db_get_interview
        (process_research_record
          { { sample_interview with status := Status.pending } with status := Status.pending }
          (ResearchOutcome.success "notes" ["q1", "q2"])
          (process_research_record { sample_interview with status := Status.pending }
            ResearchOutcome.research_fails
            [{ sample_interview with status := Status.pending }]).1).1 1).map
        Interview.status = some Status.ready :=
  ⟨(research_failure_reverts_then_succeeds
      [{ sample_interview with status := Status.pending }]
      { sample_interview with status := Status.pending } "notes" ["q1", "q2"] rfl).2.1,
   (research_failure_reverts_then_succeeds
      [{ sample_interview with status := Status.pending }]
      { sample_interview with status := Status.pending } "notes" ["q1", "q2"] rfl).2.2.2.1⟩

-- ── C2 ──────────────────────────────────────────────────────────────────────

/-- One race event preserves the at-most-one-transition invariant, provided it
is not a send-failure rollback. -/
theorem race_inv_preserved (st : RaceState) (e : TickEvent)
    (hnf : is_send_failure e = false)
    (h : st.transitions = 0 ∨ (st.transitions = 1 ∧ st.in_notified = true)) :
    (race_step st e).transitions = 0
      ∨ ((race_step st e).transitions = 1 ∧ (race_step st e).in_notified = true) := by
  cases e with
  | scan t =>
    simp only [race_step]
    by_cases hs : (st.status == Status.ready) = true
    · simpa [hs] using h
    · have hs2 : (st.status == Status.ready) = false := by simpa using hs
      simpa [hs2] using h
  | fire t =>
    simp only [race_step]
    by_cases hc : st.due_snapshot.contains t = true
    · have hcm : t ∈ st.due_snapshot := by simpa using hc
      by_cases hio : (st.in_notified || st.in_active) = true
      · simpa [hcm, hio] using h
      · rcases h with h0 | ⟨h1, hn⟩
        · have hio2 : (st.in_notified || st.in_active) = false := by simpa using hio
          right
          simp [hcm, hio2, h0]
        · exfalso
          exact hio (by simp [hn])
    · have hcm : ¬ t ∈ st.due_snapshot := by simpa using hc
      simpa [hcm] using h
  | send_failed t =>
    simp [is_send_failure] at hnf

/-- Running any failure-free event sequence preserves the invariant. -/
theorem race_run_inv (events : List TickEvent)
    (hff : ∀ e ∈ events, is_send_failure e = false) (st : RaceState)
    (h : st.transitions = 0 ∨ (st.transitions = 1 ∧ st.in_notified = true)) :
    (race_run events st).transitions = 0
      ∨ ((race_run events st).transitions = 1 ∧ (race_run events st).in_notified = true) := by
  induction events generalizing st with
  | nil => exact h
  | cons e t ih =>
    exact ih (fun x hx => hff x (List.mem_cons_of_mem e hx)) (race_step st e)
      (race_inv_preserved st e (hff e (List.mem_cons_self e t)) h)

/-- C2: over any interleaving of poll-tick events in which no notification
send fails, the record commits the `ready → notified` transition at most once;
a record whose key is already in either routing map is skipped by the trigger
(state and status unchanged); and the committing step writes the durable
status and the routing-map entry in the same atomic pre-`await` prefix, so
they are in place while the notification send is still outstanding. -/
theorem notify_at_most_once (events : List TickEvent)
    (hff : ∀ e ∈ events, is_send_failure e = false) :
    (race_run events race_init).transitions ≤ 1
    ∧ (∀ st : RaceState, ∀ t : Nat, (st.in_notified || st.in_active) = true →
         (race_step st (TickEvent.fire t)).transitions = st.transitions
         ∧ (race_step st (TickEvent.fire t)).status = st.status
         ∧ (race_step st (TickEvent.fire t)).in_notified = st.in_notified)
    ∧ (∀ st : RaceState, ∀ t : Nat, st.due_snapshot.contains t = true →
         st.in_notified = false → st.in_active = false →
         (race_step st (TickEvent.fire t)).status = Status.notified
         ∧ (race_step st (TickEvent.fire t)).in_notified = true
         ∧ (race_step st (TickEvent.fire t)).outstanding.contains t = true) := by
  refine ⟨?_, ?_, ?_⟩
  · rcases race_run_inv events hff race_init (Or.inl rfl) with h0 | ⟨h1, _⟩
    · omega
    · omega
  · intro st t hio
    simp only [race_step]
    by_cases hc : st.due_snapshot.contains t = true
    · have hcm : t ∈ st.due_snapshot := by simpa using hc
      simp [hcm, hio]
    · have hcm : ¬ t ∈ st.due_snapshot := by simpa using hc
      simp [hcm]
  · intro st t hc hn ha
    have hcm : t ∈ st.due_snapshot := by simpa using hc
    simp [race_step, hcm, hn, ha]

/-- Witness for C2: two overlapping ticks both scan the record as due and both
reach it; the transition happens once. -/
theorem notify_at_most_once_witness :
    (race_run [TickEvent.scan 0, TickEvent.scan 1, TickEvent.fire 0, TickEvent.fire 1]
        race_init).transitions ≤ 1 :=
  (notify_at_most_once
    [TickEvent.scan 0, TickEvent.scan 1, TickEvent.fire 0, TickEvent.fire 1]
    (by decide)).1

-- ── C8 ──────────────────────────────────────────────────────────────────────

section

set_option maxRecDepth 40000

/-- C8 counterexample: a response whose text matches the summary regex and
parses as JSON is returned as-is by `extract_summary` — the source casts it
without validation — so the result need not be structurally complete: here it
is a one-field object with a boolean where the recommendation belongs. -/
theorem extract_summary_unvalidated_parse :
    extract_summary
        ⟨some [ContentBlock.text_block "\x7b\"overall_recommendation\":true\x7d"]⟩ 0
      = Json.obj [("overall_recommendation", Json.bool true)]
    ∧ is_complete_summary
        (extract_summary
          ⟨some [ContentBlock.text_block "\x7b\"overall_recommendation\":true\x7d"]⟩ 0)
      = false := by
  constructor
  · rfl
  · decide

end

/-- C8 (amended): `extract_summary` is total — every model response yields
either the parsed JSON value, returned without structural validation, or the
fallback summary, which is structurally complete with recommendation
`no_hire`, score `0`, the fixed failure note for each of the four categories,
and the raw text truncated to at most 500 characters as the detailed
assessment. -/
theorem extract_summary_total_with_fallback (m : AnthropicMessage) (now : Int) :
    (∃ c j, match_summary_regex (joined_text_lf m) = some c ∧ json_parse c = some j
        ∧ extract_summary m now = j)
    ∨ (extract_summary m now = fallback_summary (joined_text_lf m) now
        ∧ is_complete_summary (fallback_summary (joined_text_lf m) now) = true
        ∧ json_get (fallback_summary (joined_text_lf m) now) "overall_recommendation"
            = some (Json.str "no_hire")
        ∧ json_get (fallback_summary (joined_text_lf m) now) "overall_score"
            = some (Json.num ⟨0, 0⟩)
        ∧ (∀ cat ∈ summary_categories, ∃ cs sc,
             json_get (fallback_summary (joined_text_lf m) now) "category_scores" = some cs
             ∧ json_get cs cat = some sc
             ∧ json_get sc "notes" = some (Json.str "解析失败，请人工评估"))
        ∧ json_get (fallback_summary (joined_text_lf m) now) "detailed_assessment"
            = some (Json.str (js_slice_to (joined_text_lf m) 500))
        ∧ (js_slice_to (joined_text_lf m) 500).data.length ≤ 500) := by
  have hnotes : ∀ cat ∈ summary_categories, ∃ cs sc,
      json_get (fallback_summary (joined_text_lf m) now) "category_scores" = some cs
      ∧ json_get cs cat = some sc
      ∧ json_get sc "notes" = some (Json.str "解析失败，请人工评估") := by
    intro cat hcat
    simp only [summary_categories, List.mem_cons, List.mem_singleton] at hcat
    rcases hcat with rfl | rfl | rfl | rfl | h
    · exact ⟨_, _, rfl, rfl, rfl⟩
    · exact ⟨_, _, rfl, rfl, rfl⟩
    · exact ⟨_, _, rfl, rfl, rfl⟩
    · exact ⟨_, _, rfl, rfl, rfl⟩
    · cases h
  have hlen : (js_slice_to (joined_text_lf m) 500).data.length ≤ 500 := by
    simp only [js_slice_to, List.length_take]
    exact min_le_left _ _
  cases hm : match_summary_regex (joined_text_lf m) with
  | none =>
    right
    exact ⟨by simp [extract_summary, hm], rfl, rfl, rfl, hnotes, rfl, hlen⟩
  | some cand =>
    cases hp : json_parse cand with
    | none =>
      right
      exact ⟨by simp [extract_summary, hm, hp], rfl, rfl, rfl, hnotes, rfl, hlen⟩
    | some j =>
      left
      exact ⟨cand, j, rfl, hp, by simp [extract_summary, hm, hp]⟩

-- ── C10 ─────────────────────────────────────────────────────────────────────

section

set_option maxRecDepth 40000

/-- C10 counterexample: the parser strips only one leading `@` (the regex
`^@` is not global), so a model-output username of `@@alice` is returned as
`@alice`, which still has a leading `@`. -/
theorem schedule_username_keeps_at_sign :
    (parse_schedule_request
        ⟨some [ContentBlock.text_block
          "\x7b\"candidate_telegram_username\": \"@@alice\"\x7d"]⟩
        0).candidate_telegram_username = some "@alice"
    ∧ str_starts "@alice" "@" = true := by
  constructor
  · decide
  · decide

end

/-- Floor-division bounds for a positive divisor. -/
theorem fdiv_bounds (a b : Int) (hb : 0 < b) :
    b * Int.fdiv a b ≤ a ∧ a < b * (Int.fdiv a b + 1) := by
  rw [Int.fdiv_eq_ediv _ (le_of_lt hb)]
  have heq := Int.ediv_add_emod a b
  have h1 := Int.emod_nonneg a (by omega : b ≠ 0)
  have h2 := Int.emod_lt_of_pos a hb
  constructor
  · linarith
  · rw [mul_add, mul_one]
    linarith

/-- The character list of the literal `"@"`. -/
theorem at_sign_data : "@".data = ['@'] := by decide

/-- C10 (amended): every `duration_minutes` the parser returns is an integer
in `[10, 120]`; every `scheduled_time` is strictly later than the `now` used
at validation; a missing or unparsable JSON payload yields the empty result;
and the returned username is the trimmed model-output field with exactly one
leading `@` removed when present — so it retains a leading `@` only when the
field itself began with `@@`. -/
theorem parse_schedule_validated_fields (m : AnthropicMessage) (now : Int) :
    (∀ d : Int, (parse_schedule_request m now).duration_minutes = some d →
        10 ≤ d ∧ d ≤ 120)
    ∧ (∀ ts : Int, (parse_schedule_request m now).scheduled_time = some ts → now < ts)
    ∧ (∀ u : String, (parse_schedule_request m now).candidate_telegram_username = some u →
        ∃ c j s, match_any_json (joined_text m) = some c ∧ json_parse c = some j
          ∧ get_truthy_string_field j "candidate_telegram_username" = some s
          ∧ ((str_starts (js_trim s) "@" = true ∧ (js_trim s).data = '@' :: u.data)
             ∨ (str_starts (js_trim s) "@" = false ∧ u = js_trim s)))
    ∧ (match_any_json (joined_text m) = none → parse_schedule_request m now = {})
    ∧ (∀ c, match_any_json (joined_text m) = some c → json_parse c = none →
        parse_schedule_request m now = {}) := by
  cases hm : match_any_json (joined_text m) with
  | none =>
    have hpr : parse_schedule_request m now = {} := by
      simp [parse_schedule_request, hm]
    refine ⟨?_, ?_, ?_, fun _ => hpr, ?_⟩
    · intro d hd
      rw [hpr] at hd
      exact Option.noConfusion hd
    · intro ts hts
      rw [hpr] at hts
      exact Option.noConfusion hts
    · intro u hu
      rw [hpr] at hu
      exact Option.noConfusion hu
    · intro c hc
      exact Option.noConfusion hc
  | some c0 =>
    cases hp : json_parse c0 with
    | none =>
      have hpr : parse_schedule_request m now = {} := by
        simp [parse_schedule_request, hm, hp]
      refine ⟨?_, ?_, ?_, ?_, fun _ _ _ => hpr⟩
      · intro d hd
        rw [hpr] at hd
        exact Option.noConfusion hd
      · intro ts hts
        rw [hpr] at hts
        exact Option.noConfusion hts
      · intro u hu
        rw [hpr] at hu
        exact Option.noConfusion hu
      · intro hnone
        exact Option.noConfusion hnone
    | some j =>
      have hpr : parse_schedule_request m now = parse_schedule_fields j now := by
        simp [parse_schedule_request, hm, hp]
      refine ⟨?_, ?_, ?_, ?_, ?_⟩
      · intro d hd
        rw [hpr] at hd
        simp only [parse_schedule_fields] at hd
        cases hjd : json_get j "duration_minutes" with
        | none =>
          rw [hjd] at hd
          exact Option.noConfusion hd
        | some v =>
          rw [hjd] at hd
          cases v with
          | num q =>
            by_cases hq : jnum_le ⟨10, 0⟩ q ∧ jnum_le q ⟨120, 0⟩
            · change (if jnum_le ⟨10, 0⟩ q ∧ jnum_le q ⟨120, 0⟩
                  then some (js_round q) else none) = some d at hd
              rw [if_pos hq] at hd
              injection hd with hd2
              subst hd2
              rcases hq with ⟨h10, h120⟩
              simp only [jnum_le, JNum.den] at h10 h120
              have hdpos : (0 : Int) < (q.dpred : Int) + 1 := by
                have := Int.ofNat_nonneg q.dpred
                omega
              have h10a : 10 * ((q.dpred : Int) + 1) ≤ q.num := by
                simpa using h10
              have h120a : q.num ≤ 120 * ((q.dpred : Int) + 1) := by
                simpa using h120
              have hb2 : (0 : Int) < 2 * ((q.dpred : Int) + 1) := by omega
              obtain ⟨hlo, hhi⟩ :=
                fdiv_bounds (2 * q.num + ((q.dpred : Int) + 1))
                  (2 * ((q.dpred : Int) + 1)) hb2
              have hjr : js_round q
                  = Int.fdiv (2 * q.num + ((q.dpred : Int) + 1))
                      (2 * ((q.dpred : Int) + 1)) := rfl
              rw [← hjr] at hlo hhi
              have key1 : ((q.dpred : Int) + 1) * 19 < ((q.dpred : Int) + 1) * (2 * js_round q) := by
                nlinarith [hhi, h10a]
              have key2 : ((q.dpred : Int) + 1) * (2 * js_round q) ≤ ((q.dpred : Int) + 1) * 241 := by
                nlinarith [hlo, h120a]
              have h19 : (19 : Int) < 2 * js_round q :=
                lt_of_mul_lt_mul_left key1 (le_of_lt hdpos)
              have h241 : 2 * js_round q ≤ 241 :=
                le_of_mul_le_mul_left key2 hdpos
              omega
            · change (if jnum_le ⟨10, 0⟩ q ∧ jnum_le q ⟨120, 0⟩
                  then some (js_round q) else none) = some d at hd
              rw [if_neg hq] at hd
              exact Option.noConfusion hd
          | null => exact Option.noConfusion hd
          | bool b => exact Option.noConfusion hd
          | str s2 => exact Option.noConfusion hd
          | arr xs => exact Option.noConfusion hd
          | obj fs => exact Option.noConfusion hd
      · intro ts hts
        rw [hpr] at hts
        simp only [parse_schedule_fields] at hts
        cases hs : get_truthy_string_field j "scheduled_time_cst" with
        | none =>
          rw [hs] at hts
          exact Option.noConfusion hts
        | some s2 =>
          simp only [hs] at hts
          cases hct : parse_cst_time s2 with
          | none =>
            simp only [hct] at hts
            exact Option.noConfusion hts
          | some p =>
            obtain ⟨y, mo, dd, hh, mi⟩ := p
            simp only [hct] at hts
            by_cases hlt : now < js_date_utc y (mo - 1) dd (hh - 8) mi
            · change (if now < js_date_utc y (mo - 1) dd (hh - 8) mi
                  then some (js_date_utc y (mo - 1) dd (hh - 8) mi) else none) = some ts at hts
              rw [if_pos hlt] at hts
              injection hts with hts2
              exact hts2 ▸ hlt
            · change (if now < js_date_utc y (mo - 1) dd (hh - 8) mi
                  then some (js_date_utc y (mo - 1) dd (hh - 8) mi) else none) = some ts at hts
              rw [if_neg hlt] at hts
              exact Option.noConfusion hts
      · intro u hu
        rw [hpr] at hu
        simp only [parse_schedule_fields] at hu
        cases hs : get_truthy_string_field j "candidate_telegram_username" with
        | none =>
          rw [hs] at hu
          exact Option.noConfusion hu
        | some s2 =>
          rw [hs] at hu
          simp only [Option.map_some'] at hu
          injection hu with hu2
          refine ⟨c0, j, s2, rfl, hp, hs, ?_⟩
          cases hdata : (js_trim s2).data with
          | nil =>
            right
            constructor
            · show ("@".data.isPrefixOf (js_trim s2).data) = false
              rw [at_sign_data, hdata]
              rfl
            · rw [← hu2]
              simp [strip_leading_at, hdata]
          | cons ch t =>
            by_cases hch : ch = '@'
            · subst hch
              left
              constructor
              · show ("@".data.isPrefixOf (js_trim s2).data) = true
                rw [at_sign_data, hdata]
                simp [List.isPrefixOf]
              · have hu3 : u = String.mk t := by
                  rw [← hu2]
                  simp [strip_leading_at, hdata]
                subst hu3
                simp [hdata]
            · right
              have hbeq : ('@' == ch) = false :=
                beq_eq_false_iff_ne.mpr (Ne.symm hch)
              constructor
              · show ("@".data.isPrefixOf (js_trim s2).data) = false
                rw [at_sign_data, hdata]
                simp [List.isPrefixOf, hbeq]
              · rw [← hu2]
                simp [strip_leading_at, hdata, hch]
      · intro hnone
        exact Option.noConfusion hnone
      · intro c hc hpc
        injection hc with hc2
        subst hc2
        rw [hp] at hpc
        exact Option.noConfusion hpc

section

set_option maxRecDepth 40000

/-- Witness for C10: a complete, valid model response — the fractional
duration 30.7 rounds to 31 inside the range, and the parsed CST time lies in
the future of `now = 0`. -/
theorem parse_schedule_validated_fields_witness :
    ((10 : Int) ≤ 31 ∧ (31 : Int) ≤ 120) ∧ (0 : Int) < 1893556800000 := by
  have h := parse_schedule_validated_fields
    ⟨some [ContentBlock.text_block
      "\x7b\"candidate_telegram_username\": \"@bob\", \"duration_minutes\": 30.7, \"scheduled_time_cst\": \"2030-01-02 12:00\", \"candidate_name\": \"Zhang\"\x7d"]⟩
    0
  exact ⟨h.1 31 (by decide), h.2.1 1893556800000 (by decide)⟩

end

end EvalMate
